import Mathlib

/-!
Verification of the problemgenerator filter layer
(`src/dpemu/problemgenerator/filters.py`).

Shallow embedding choices:
* A NumPy `RandomState` is modelled as a stream `ℕ → ℚ` of draws.
  `random_state.rand()` pops one value; `rand(*shape)` pops one value per
  element in C order.  A stream produced by `rand` satisfies `randWF`
  (all draws in `[0, 1)`).  `random_state.normal(loc, scale, n)` is modelled
  as `n` draws `q` from the underlying source returned as `loc + scale * q`.
* A float (tensor element) is a `PyFloat`: a rational number or NaN.
  Arithmetic propagates NaN and every ordered comparison with NaN is false,
  as in IEEE-754 / NumPy.
* Tensors are flat lists of `PyFloat` (the filters under study traverse
  `np.ndenumerate` order, i.e. the flattened tensor).
* In-place mutation becomes explicit value passing: `apply` returns the new
  data, the advanced random stream, and the (possibly updated) filter
  instance state — `Gap` is the one filter that updates instance state.
-/

namespace DPEmu

/-- A Python/NumPy double restricted to the values the filters produce:
a rational number or NaN. -/
inductive PyFloat
  | num (x : ℚ)
  | nan
deriving DecidableEq

/-- IEEE addition on the embedded floats: NaN propagates. -/
def addF : PyFloat → PyFloat → PyFloat
  | .num a, .num b => .num (a + b)
  | _, _ => .nan

/-- IEEE subtraction on the embedded floats: NaN propagates. -/
def subF : PyFloat → PyFloat → PyFloat
  | .num a, .num b => .num (a - b)
  | _, _ => .nan

/-- IEEE multiplication on the embedded floats: NaN propagates. -/
def mulF : PyFloat → PyFloat → PyFloat
  | .num a, .num b => .num (a * b)
  | _, _ => .nan

/-- IEEE strict less-than: any comparison with NaN is false. -/
def ltF : PyFloat → PyFloat → Bool
  | .num a, .num b => a < b
  | _, _ => false

/-- IEEE less-or-equal: any comparison with NaN is false. -/
def leF : PyFloat → PyFloat → Bool
  | .num a, .num b => a ≤ b
  | _, _ => false

/-- Python `min(a, b)`: keeps `a` unless `b < a` (so NaN in first position wins). -/
def minF (a b : PyFloat) : PyFloat := if ltF b a then b else a

/-- Python `max(a, b)`: keeps `a` unless `a < b`. -/
def maxF (a b : PyFloat) : PyFloat := if ltF a b then b else a

/-- `np.clip(x, mn, mx)`: values below `mn` become `mn`, above `mx` become
`mx`; NaN passes through. -/
def clipF (mn mx x : PyFloat) : PyFloat :=
  if ltF x mn then mn else if ltF mx x then mx else x

/-- The random source: an infinite stream of draws. -/
abbrev RandSrc := ℕ → ℚ

/-- Advance the stream past `n` consumed draws. -/
def shiftR (r : RandSrc) (n : ℕ) : RandSrc := fun k => r (k + n)

/-- A stream that `RandomState.rand` can produce: every draw lies in `[0, 1)`.
(NumPy's `random_sample` returns `m / 2^53` with `0 ≤ m < 2^53`, so a draw of
exactly `0` is possible.) -/
def randWF (r : RandSrc) : Prop := ∀ n, 0 ≤ r n ∧ r n < 1

/-- The first `n` draws of the stream, in order (`rand(*shape)` flattened). -/
def drawsList (r : RandSrc) : ℕ → List ℚ
  | 0 => []
  | n + 1 => r 0 :: drawsList (shiftR r 1) n

/-- The elementwise operations of the `BinaryFilter` subclasses that act on
float tensors.  (`Division`, `IntegerDivision`, `Modulo` need IEEE infinities
and `And`/`Or`/`Xor` act on integer dtypes; the combination structure proved
below is operation-generic via `combineInto`.) -/
inductive BOp
  | add
  | sub
  | mul
  | min
  | max
deriving DecidableEq

/-- `operation` of each embedded `BinaryFilter` subclass. -/
def BOp.interp : BOp → PyFloat → PyFloat → PyFloat
  | .add => addF
  | .sub => subF
  | .mul => mulF
  | .min => minF
  | .max => maxF

/-- A filter instance after a (well-typed) `set_params` call: constructor
arguments are the resolved parameter values held on the instance.  `gap`
additionally carries the `working` flag, the one piece of instance state an
`apply` call can change. -/
inductive RFilter
  | identity
  | constant (value : PyFloat)
  | missing (probability : PyFloat)
  | clip (min max : PyFloat)
  | gaussianNoise (mean std : PyFloat)
  | sensorDrift (magnitude : PyFloat)
  | gap (prob_break prob_recover missing_value : PyFloat) (working : Bool)
  | applyWithProb (probability : PyFloat) (ftr : RFilter)
  | binary (op : BOp) (filter_a filter_b : RFilter)
deriving DecidableEq

/-- The elementwise walk of `Gap.apply`: for each element first advance the
two-state Markov chain with one draw (`update_working_state`), then overwrite
the element with `missing_value` whenever the updated state is broken.
Returns (new data, advanced stream, final `working` flag). -/
def gapGo (pb pr mv : PyFloat) :
    List PyFloat → RandSrc → Bool → List PyFloat × RandSrc × Bool
  | [], r, w => ([], r, w)
  | x :: xs, r, w =>
    let w1 := if w then !(ltF (.num (r 0)) pb) else ltF (.num (r 0)) pr
    let rest := gapGo pb pr mv xs (shiftR r 1) w1
    ((if w1 then x else mv) :: rest.1, rest.2)

/-- The write-back loop of `BinaryFilter.apply`: for every index of
`node_data`, overwrite the element with `operation(data_a[index],
data_b[index])`.  (`data_a` and `data_b` always have the shape of `node_data`;
see `apply_length` below.  The `.nan` default of `getD` is never reached.) -/
def combineInto (op : PyFloat → PyFloat → PyFloat)
    (node_data data_a data_b : List PyFloat) : List PyFloat :=
  (List.range node_data.length).map (fun i => op (data_a.getD i .nan) (data_b.getD i .nan))

/-- `apply(node_data, random_state, named_dims)` of each embedded filter,
translated from `filters.py`.  Returns the mutated data, the advanced random
stream, and the filter instance after the call (identical to the input except
for `gap`, whose `working` flag persists). -/
def RFilter.apply : RFilter → List PyFloat → RandSrc → List PyFloat × RandSrc × RFilter
  | .identity, data, r => (data, r, .identity)
  | .constant v, data, r => (List.replicate data.length v, r, .constant v)
  | .missing p, data, r =>
    (List.zipWith (fun q x => if leF (.num q) p then .nan else x)
       (drawsList r data.length) data,
     shiftR r data.length, .missing p)
  | .clip mn mx, data, r => (data.map (clipF mn mx), r, .clip mn mx)
  | .gaussianNoise m s, data, r =>
    (List.zipWith (fun q x => addF x (addF m (mulF s (.num q))))
       (drawsList r data.length) data,
     shiftR r data.length, .gaussianNoise m s)
  | .sensorDrift mag, data, r =>
    (List.zipWith (fun inc x => addF x inc)
       ((List.range data.length).map (fun i : ℕ => mulF (.num ((i : ℚ) + 1)) mag)) data,
     r, .sensorDrift mag)
  | .gap pb pr mv w, data, r =>
    let t := gapGo pb pr mv data r w
    (t.1, t.2.1, .gap pb pr mv t.2.2)
  | .applyWithProb p f, data, r =>
    if ltF (.num (r 0)) p then
      let t := f.apply data (shiftR r 1)
      (t.1, t.2.1, .applyWithProb p t.2.2)
    else
      (data, shiftR r 1, .applyWithProb p f)
  | .binary op fa fb, data, r =>
    let ta := fa.apply data r
    let tb := fb.apply data ta.2.1
    (combineInto op.interp data ta.1 tb.1, tb.2.1, .binary op ta.2.2 tb.2.2)

/-- `true` for filters whose `apply` never touches instance state, i.e. that
contain no `Gap`. -/
def RFilter.gapFree : RFilter → Bool
  | .gap _ _ _ _ => false
  | .applyWithProb _ f => f.gapFree
  | .binary _ a b => a.gapFree && b.gapFree
  | _ => true

/-!
The `set_params` layer.  Constructor arguments of a filter are string keys;
`set_params(params_dict)` looks each key up in the mapping and stores the
value on the instance.  A Python `dict` lookup of an absent key raises
`KeyError(key)`.
-/

/-- A filter before parameter resolution: the constructor stored only the
string keys (`*_id` attributes). -/
inductive FilterExpr
  | identity
  | constant (value_id : String)
  | missing (probability_id : String)
  | applyWithProbability (ftr_id probability_id : String)
  | binaryF (op : BOp) (filter_a_id filter_b_id : String)
  | difference (ftr_id : String)
deriving DecidableEq

/-- A value stored in the parameter mapping: a number or a filter object. -/
inductive FVal
  | num (x : PyFloat)
  | filt (f : FilterExpr)
deriving DecidableEq

/-- The runtime parameter mapping (`params_dict`). -/
abbrev PDict := List (String × FVal)

/-- Python exceptions the resolution layer can surface.
`missingParameterError` is the exception type named by the spec; no such
class exists anywhere in the repository — it is included only so that
statements can compare against it. -/
inductive PyErr
  | keyError (key : String)
  | missingParameterError (key : String)
  | typeError
  | recursionError
deriving DecidableEq

/-- `params_dict[k]` as a partial lookup (later insertions shadow earlier
bindings, matching `dict` assignment of a fresh key). -/
def dictGet (d : PDict) (k : String) : Option FVal :=
  match d with
  | [] => none
  | (k', v) :: rest => if k' = k then some v else dictGet rest k

/-- `params_dict[k]`: raises `KeyError(k)` when the key is absent. -/
def getP (d : PDict) (k : String) : Except PyErr FVal :=
  match dictGet d k with
  | some v => .ok v
  | none => .error (.keyError k)

/-- `Missing.__init__` stores `probability_id`. -/
structure MissingIds where
  probability_id : String
deriving DecidableEq

/-- `Missing.set_params`: `self.probability = params_dict[self.probability_id]`
— a bare lookup with no type check; the resolved value is returned. -/
def MissingIds.set_params (f : MissingIds) (d : PDict) : Except PyErr FVal :=
  getP d f.probability_id

/-- `GaussianNoise.__init__` stores `mean_id` and `std_id`. -/
structure GaussianNoiseIds where
  mean_id : String
  std_id : String
deriving DecidableEq

/-- `GaussianNoise.set_params`: looks up `mean_id` then `std_id`, in source
order, storing both on the instance. -/
def GaussianNoiseIds.set_params (f : GaussianNoiseIds) (d : PDict) :
    Except PyErr (FVal × FVal) :=
  match getP d f.mean_id with
  | .error e => .error e
  | .ok m =>
    match getP d f.std_id with
    | .error e => .error e
    | .ok s => .ok (m, s)

/-- `Gap.__init__` stores the three parameter keys. -/
structure GapIds where
  prob_break_id : String
  prob_recover_id : String
  missing_value_id : String
deriving DecidableEq

/-- The mutable fields of a `Gap` instance after resolution. -/
structure GapFields where
  prob_break : FVal
  prob_recover : FVal
  missing_value : FVal
  working : Bool
deriving DecidableEq

/-- `Gap.set_params`: resolves the three keys and then sets
`self.working = True`, whatever the flag was before the call. -/
def GapIds.set_params (ids : GapIds) (d : PDict) (self : GapFields) :
    Except PyErr GapFields :=
  match getP d ids.prob_break_id with
  | .error e => .error e
  | .ok pb =>
    match getP d ids.prob_recover_id with
    | .error e => .error e
    | .ok pr =>
      match getP d ids.missing_value_id with
      | .error e => .error e
      | .ok mv => .ok ⟨pb, pr, mv, true⟩

/-- Total length of all keys of the mapping. -/
def keyLenSum (d : PDict) : ℕ := (d.map (fun kv => kv.1.length)).sum

/-- Modelled from the spec: `utils.generate_random_dict_key(params_dict,
base)` is imported from `src.problemgenerator.utils`, whose source is not in
the repository snapshot.  Per its use in `Difference.set_params` its contract
is to return a key that is not already present in the mapping; it is modelled
deterministically as `base` followed by more characters than any existing key
has, which makes it provably fresh (`dictGet_generate_random_dict_key`). -/
def generate_random_dict_key (d : PDict) (base : String) : String :=
  base ++ String.mk (List.replicate (keyLenSum d + 1) 'x')

/-- `set_params` of the embedded filters, resolving a `FilterExpr` against the
mapping into an `RFilter`.  The fuel bounds the recursion depth through
filter-valued parameters (Python would raise `RecursionError` on a cyclic
mapping).  Where Python stores an ill-typed value silently and only fails
later (at `apply`, or inside the nested `set_params` call), the resolution
here surfaces it as `typeError`; the claims below only exercise well-typed
mappings.  `Difference.set_params` is translated faithfully: it generates a
fresh key, inserts `Identity()` into the mapping under that key, builds
`Subtraction(self.ftr_id, identity_key)` and resolves it. -/
def resolve : ℕ → FilterExpr → PDict → Except PyErr RFilter
  | 0, _, _ => .error .recursionError
  | _ + 1, .identity, _ => .ok .identity
  | _ + 1, .constant vid, d =>
    match getP d vid with
    | .error e => .error e
    | .ok (.num v) => .ok (.constant v)
    | .ok (.filt _) => .error .typeError
  | _ + 1, .missing pid, d =>
    match getP d pid with
    | .error e => .error e
    | .ok (.num p) => .ok (.missing p)
    | .ok (.filt _) => .error .typeError
  | n + 1, .applyWithProbability fid pid, d =>
    match getP d fid with
    | .error e => .error e
    | .ok (.num _) => .error .typeError
    | .ok (.filt ef) =>
      match getP d pid with
      | .error e => .error e
      | .ok (.filt _) => .error .typeError
      | .ok (.num p) =>
        match resolve n ef d with
        | .error e => .error e
        | .ok rf => .ok (.applyWithProb p rf)
  | n + 1, .binaryF op aid bid, d =>
    match getP d aid with
    | .error e => .error e
    | .ok (.num _) => .error .typeError
    | .ok (.filt ea) =>
      match getP d bid with
      | .error e => .error e
      | .ok (.num _) => .error .typeError
      | .ok (.filt eb) =>
        match resolve n ea d with
        | .error e => .error e
        | .ok ra =>
          match resolve n eb d with
          | .error e => .error e
          | .ok rb => .ok (.binary op ra rb)
  | n + 1, .difference fid, d =>
    let identity_key := generate_random_dict_key d "identity"
    resolve n (.binaryF .sub fid identity_key) ((identity_key, .filt .identity) :: d)

/-- The filter the spec says `Difference(f)` abbreviates, built directly from
the spec's words: `Subtraction(f, Identity)`. -/
def subtractionOfSpec (a : RFilter) : RFilter := .binary .sub a .identity

/-! Helper lemmas. -/

theorem length_drawsList (r : RandSrc) (n : ℕ) : (drawsList r n).length = n := by
  induction n generalizing r with
  | zero => rfl
  | succ n ih => simp [drawsList, ih]

theorem getElem?_drawsList (r : RandSrc) (n i : ℕ) (h : i < n) :
    (drawsList r n)[i]? = some (r i) := by
  induction n generalizing r i with
  | zero => omega
  | succ n ih =>
    cases i with
    | zero => simp [drawsList]
    | succ i =>
      have := ih (shiftR r 1) i (by omega)
      simpa [drawsList, shiftR, Nat.add_comm] using this

theorem randWF_shiftR (r : RandSrc) (n : ℕ) (h : randWF r) : randWF (shiftR r n) :=
  fun k => h (k + n)

theorem length_gapGo (pb pr mv : PyFloat) (data : List PyFloat) (r : RandSrc) (w : Bool) :
    (gapGo pb pr mv data r w).1.length = data.length := by
  induction data generalizing r w with
  | nil => rfl
  | cons x xs ih => simp [gapGo, ih]

theorem length_combineInto (op : PyFloat → PyFloat → PyFloat)
    (nd a b : List PyFloat) : (combineInto op nd a b).length = nd.length := by
  simp [combineInto]

theorem combineInto_eq_zipWith (op : PyFloat → PyFloat → PyFloat)
    (nd a b : List PyFloat) (ha : a.length = nd.length) (hb : b.length = nd.length) :
    combineInto op nd a b = List.zipWith op a b := by
  refine List.ext_getElem? fun i => ?_
  rcases Nat.lt_or_ge i nd.length with hi | hi
  · have hia : i < a.length := ha ▸ hi
    have hib : i < b.length := hb ▸ hi
    rw [List.getElem?_zipWith']
    simp [combineInto, List.getElem?_range, hi,
      List.getD_eq_getElem a PyFloat.nan hia, List.getD_eq_getElem b PyFloat.nan hib,
      List.getElem?_eq_getElem hia, List.getElem?_eq_getElem hib]
  · have h1 : (combineInto op nd a b).length ≤ i := by
      simpa [length_combineInto] using hi
    have h2 : (List.zipWith op a b).length ≤ i := by
      simp [List.length_zipWith, ha, hb]
      omega
    rw [List.getElem?_eq_none h1, List.getElem?_eq_none h2]

/-- `apply` preserves the number of elements, for every embedded filter. -/
theorem apply_length (f : RFilter) :
    ∀ (data : List PyFloat) (r : RandSrc), ((f.apply data r).1).length = data.length := by
  induction f with
  | identity => intro data r; rfl
  | constant v => intro data r; simp [RFilter.apply]
  | missing p => intro data r; simp [RFilter.apply, length_drawsList]
  | clip mn mx => intro data r; simp [RFilter.apply]
  | gaussianNoise m s => intro data r; simp [RFilter.apply, length_drawsList]
  | sensorDrift mag =>
    intro data r
    simp only [RFilter.apply]
    rw [List.length_zipWith, List.length_map, List.length_range, Nat.min_self]
  | gap pb pr mv w => intro data r; simp [RFilter.apply, length_gapGo]
  | applyWithProb p f ih =>
    intro data r
    by_cases h : ltF (.num (r 0)) p = true
    · simp [RFilter.apply, h, ih]
    · simp [RFilter.apply, h]
  | binary op fa fb iha ihb =>
    intro data r
    simp [RFilter.apply, length_combineInto]

theorem keyLenSum_cons (hd : String × FVal) (tl : PDict) :
    keyLenSum (hd :: tl) = hd.1.length + keyLenSum tl := by
  simp [keyLenSum]

theorem dictGet_of_long (d : PDict) (k : String) (h : keyLenSum d < k.length) :
    dictGet d k = none := by
  induction d with
  | nil => rfl
  | cons hd tl ih =>
    rw [keyLenSum_cons] at h
    have hne : hd.1 ≠ k := by
      intro e
      rw [e] at h
      omega
    simp only [dictGet, if_neg hne]
    exact ih (by omega)

theorem keyLenSum_lt_generate (d : PDict) (base : String) :
    keyLenSum d < (generate_random_dict_key d base).length := by
  rw [generate_random_dict_key, String.length_append]
  have : (String.mk (List.replicate (keyLenSum d + 1) 'x')).length
      = keyLenSum d + 1 := by
    show (List.replicate (keyLenSum d + 1) 'x').length = keyLenSum d + 1
    simp
  omega

/-- The generated key is absent from the mapping it was generated for. -/
theorem dictGet_generate_random_dict_key (d : PDict) (base : String) :
    dictGet d (generate_random_dict_key d base) = none :=
  dictGet_of_long d _ (keyLenSum_lt_generate d base)

/-- For a gap-free filter, `apply` leaves the filter instance unchanged. -/
theorem apply_state_eq (f : RFilter) (hf : f.gapFree = true) :
    ∀ (data : List PyFloat) (r : RandSrc), (f.apply data r).2.2 = f := by
  induction f with
  | identity => intro data r; rfl
  | constant v => intro data r; rfl
  | missing p => intro data r; rfl
  | clip mn mx => intro data r; rfl
  | gaussianNoise m s => intro data r; rfl
  | sensorDrift mag => intro data r; rfl
  | gap pb pr mv w => simp [RFilter.gapFree] at hf
  | applyWithProb p f ih =>
    intro data r
    have hf' : f.gapFree = true := by simpa [RFilter.gapFree] using hf
    by_cases h : ltF (.num (r 0)) p = true
    · simp [RFilter.apply, h, ih hf']
    · simp [RFilter.apply, h]
  | binary op fa fb iha ihb =>
    intro data r
    have ha : fa.gapFree = true := by
      have := hf
      simp [RFilter.gapFree, Bool.and_eq_true] at this
      exact this.1
    have hb : fb.gapFree = true := by
      have := hf
      simp [RFilter.gapFree, Bool.and_eq_true] at this
      exact this.2
    simp [RFilter.apply, iha ha, ihb hb]

/-! Claim theorems. -/

/-- C9: for every (embedded) filter, `apply` preserves the shape of the
tensor it is given: the output has exactly as many elements as the input,
because mutation is in place and no filter resizes the data. -/
theorem filters_preserve_shape (f : RFilter) (data : List PyFloat) (r : RandSrc) :
    ((f.apply data r).1).length = data.length :=
  apply_length f data r

/-- C2: `BinaryFilter.apply` takes two independent copies of the input,
applies `filter_a` to one and `filter_b` to the other — both branches see the
original `data`, with the random stream threaded through `filter_a` first —
and then overwrites each element `i` of the input with
`operation(data_a[i], data_b[i])`. -/
theorem binaryFilter_independent_copies (op : BOp) (fa fb : RFilter)
    (data : List PyFloat) (r : RandSrc) :
    ((RFilter.binary op fa fb).apply data r).1
      = List.zipWith op.interp ((fa.apply data r).1)
          ((fb.apply data ((fa.apply data r).2.1)).1) := by
  simp only [RFilter.apply]
  exact combineInto_eq_zipWith _ _ _ _ (apply_length fa data r) (apply_length fb data _)

/-- C8: `SensorDrift.apply` adds `(i + 1) * magnitude` to element `i` of the
leading axis, consuming no random draws: on a tensor of 100 ones with
magnitude 2, element `i` (0-indexed) of the output equals `1 + 2 * (i + 1)`,
and the random stream is returned untouched. -/
theorem sensorDrift_linearity (r : RandSrc) (i : ℕ) (h : i < 100) :
    (((RFilter.sensorDrift (.num 2)).apply (List.replicate 100 (PyFloat.num 1)) r).1)[i]?
        = some (PyFloat.num (1 + 2 * ((i : ℚ) + 1)))
  ∧ ((RFilter.sensorDrift (.num 2)).apply (List.replicate 100 (PyFloat.num 1)) r).2.1 = r := by
  constructor
  · have hrep : i < (List.replicate 100 (PyFloat.num 1)).length := by simpa using h
    have h1 : (List.replicate 100 (PyFloat.num 1))[i]? = some (PyFloat.num 1) := by
      rw [List.getElem?_eq_getElem hrep, List.getElem_replicate]
    have h2 : ((List.range (List.replicate 100 (PyFloat.num 1)).length).map
          (fun j : ℕ => mulF (.num ((j : ℚ) + 1)) (.num 2)))[i]?
        = some (mulF (.num ((i : ℚ) + 1)) (.num 2)) := by
      rw [List.getElem?_map, List.getElem?_range (by simpa using h)]
      rfl
    simp only [RFilter.apply]
    rw [List.getElem?_zipWith', h2, h1]
    simp only [Option.map_some', Option.some_bind, mulF, addF, Option.some.injEq,
      PyFloat.num.injEq]
    ring
  · simp only [RFilter.apply]

/-- Witness for `sensorDrift_linearity` at `i = 7`. -/
theorem sensorDrift_linearity_witness :
    (((RFilter.sensorDrift (.num 2)).apply (List.replicate 100 (PyFloat.num 1))
        (fun _ => 0)).1)[7]? = some (PyFloat.num (1 + 2 * ((7 : ℚ) + 1)))
  ∧ ((RFilter.sensorDrift (.num 2)).apply (List.replicate 100 (PyFloat.num 1))
        (fun _ => 0)).2.1 = (fun _ => (0 : ℚ)) :=
  sensorDrift_linearity (fun _ => 0) 7 (by decide)

/-- C5: `ApplyWithProbability.apply` draws exactly one value from the random
source; when the draw does not indicate application it consumes no further
draws and leaves the data unchanged, and when it does it delegates to the
inner filter on the once-advanced stream. -/
theorem applyWithProbability_single_draw (p : PyFloat) (f : RFilter)
    (data : List PyFloat) (r : RandSrc) :
    (ltF (.num (r 0)) p = false →
      (RFilter.applyWithProb p f).apply data r = (data, shiftR r 1, .applyWithProb p f))
  ∧ (ltF (.num (r 0)) p = true →
      (RFilter.applyWithProb p f).apply data r
        = ((f.apply data (shiftR r 1)).1, (f.apply data (shiftR r 1)).2.1,
            .applyWithProb p (f.apply data (shiftR r 1)).2.2)) := by
  constructor <;> intro h <;> simp [RFilter.apply, h]

/-- Witness for `applyWithProbability_single_draw`: with probability 1/2 and
first draw 3/4 the inner filter is skipped and the data survives unchanged
with exactly one draw consumed. -/
theorem applyWithProbability_single_draw_witness :
    ltF (.num ((fun _ => mkRat 3 4) 0)) (.num (mkRat 1 2)) = false
  ∧ (RFilter.applyWithProb (.num (mkRat 1 2)) (.constant (.num 3))).apply
        [PyFloat.num 7] (fun _ => mkRat 3 4)
      = ([PyFloat.num 7], shiftR (fun _ => mkRat 3 4) 1,
          .applyWithProb (.num (mkRat 1 2)) (.constant (.num 3))) :=
  ⟨by decide, (applyWithProbability_single_draw _ _ _ _).1 (by decide)⟩

/-- C10: every successful `Gap.set_params` call leaves the instance with
`working = True`, whatever the flag was before the call; indeed the result is
entirely independent of the prior instance state. -/
theorem gap_set_params_resets_working (ids : GapIds) (d : PDict) (self g' : GapFields)
    (h : GapIds.set_params ids d self = .ok g') :
    g'.working = true ∧ ∀ other : GapFields, GapIds.set_params ids d other = .ok g' := by
  cases hpb : getP d ids.prob_break_id with
  | error e => simp [GapIds.set_params, hpb] at h
  | ok pb =>
    cases hpr : getP d ids.prob_recover_id with
    | error e => simp [GapIds.set_params, hpb, hpr] at h
    | ok pr =>
      cases hmv : getP d ids.missing_value_id with
      | error e => simp [GapIds.set_params, hpb, hpr, hmv] at h
      | ok mv =>
        simp only [GapIds.set_params, hpb, hpr, hmv, Except.ok.injEq] at h
        subst h
        exact ⟨rfl, fun other => by simp [GapIds.set_params, hpb, hpr, hmv]⟩

/-- Witness for `gap_set_params_resets_working`: a concrete mapping and an
instance whose sensor is currently broken (`working = false`). -/
theorem gap_set_params_resets_working_witness :
    GapIds.set_params ⟨"pb", "pr", "mv"⟩
        [("pb", .num (.num 0)), ("pr", .num (.num 1)), ("mv", .num .nan)]
        ⟨.num (.num 5), .num (.num 5), .num (.num 5), false⟩
      = .ok ⟨.num (.num 0), .num (.num 1), .num .nan, true⟩
  ∧ (⟨.num (.num 0), .num (.num 1), .num .nan, true⟩ : GapFields).working = true :=
  ⟨rfl, (gap_set_params_resets_working ⟨"pb", "pr", "mv"⟩
      [("pb", .num (.num 0)), ("pr", .num (.num 1)), ("mv", .num .nan)]
      ⟨.num (.num 5), .num (.num 5), .num (.num 5), false⟩
      ⟨.num (.num 0), .num (.num 1), .num .nan, true⟩ rfl).1⟩

/-- C3 counterexample: resolving `Missing` against a mapping lacking its
probability key fails with `KeyError` — not with the `MissingParameterError`
the spec names, which does not exist anywhere in the code. -/
theorem missing_set_params_raises_keyerror :
    MissingIds.set_params ⟨"p"⟩ [] = .error (.keyError "p")
  ∧ (Except.error (PyErr.keyError "p") : Except PyErr FVal)
      ≠ Except.error (PyErr.missingParameterError "p") :=
  ⟨rfl, by intro hc; injection hc with h; exact absurd h (by decide)⟩

/-- C3 amended: `set_params` succeeds exactly when every required key is
present, and on an absent key it fails with `KeyError` naming the first
absent key in resolution order (shown for `Missing` and `GaussianNoise`). -/
theorem set_params_succeeds_iff_keys_present (pid mid sid : String) (d : PDict) :
    ((∃ v, MissingIds.set_params ⟨pid⟩ d = .ok v) ↔ (dictGet d pid).isSome = true)
  ∧ (dictGet d pid = none → MissingIds.set_params ⟨pid⟩ d = .error (.keyError pid))
  ∧ ((∃ ms, GaussianNoiseIds.set_params ⟨mid, sid⟩ d = .ok ms)
      ↔ ((dictGet d mid).isSome = true ∧ (dictGet d sid).isSome = true))
  ∧ (dictGet d mid = none →
      GaussianNoiseIds.set_params ⟨mid, sid⟩ d = .error (.keyError mid))
  ∧ (∀ v, dictGet d mid = some v → dictGet d sid = none →
      GaussianNoiseIds.set_params ⟨mid, sid⟩ d = .error (.keyError sid)) := by
  refine ⟨?_, ?_, ?_, ?_, ?_⟩
  · cases hp : dictGet d pid <;> simp [MissingIds.set_params, getP, hp]
  · intro hp; simp [MissingIds.set_params, getP, hp]
  · cases hm : dictGet d mid <;> cases hs : dictGet d sid <;>
      simp [GaussianNoiseIds.set_params, getP, hm, hs]
  · intro hm; simp [GaussianNoiseIds.set_params, getP, hm]
  · intro v hm hs; simp [GaussianNoiseIds.set_params, getP, hm, hs]

/-- C6 counterexample: the mask of `Missing.apply` is `rand(shape) <=
probability`, so with probability 0 an element whose draw is exactly 0 — a
value `rand` can produce — is still replaced by NaN: the claim that
probability 0 leaves every element unchanged for every random-source state is
false. -/
theorem missing_probability_zero_counterexample :
    randWF (fun _ => 0)
  ∧ ((RFilter.missing (.num 0)).apply [PyFloat.num 5] (fun _ => 0)).1 = [PyFloat.nan]
  ∧ [PyFloat.nan] ≠ [PyFloat.num 5] := by
  refine ⟨fun n => by norm_num, by decide, by decide⟩

/-- C6 amended: `Missing.apply` replaces element `i` by NaN exactly when its
draw is `≤ probability`; hence probability 1 masks every element (draws are
`< 1`), and probability 0 leaves the data unchanged whenever every draw is
nonzero (a draw of exactly 0 is still masked, because the comparison is
`<=`). -/
theorem missing_probability_semantics (p : PyFloat) (data : List PyFloat) (r : RandSrc)
    (h : randWF r) :
    ((RFilter.missing (.num 1)).apply data r).1 = List.replicate data.length PyFloat.nan
  ∧ ((∀ n, 0 < r n) → ((RFilter.missing (.num 0)).apply data r).1 = data)
  ∧ (∀ i x, data[i]? = some x →
      (((RFilter.missing p).apply data r).1)[i]?
        = some (if leF (.num (r i)) p then PyFloat.nan else x)) := by
  have elt : ∀ (q : PyFloat) i x, data[i]? = some x →
      (((RFilter.missing q).apply data r).1)[i]?
        = some (if leF (.num (r i)) q then PyFloat.nan else x) := by
    intro q i x hx
    have hi : i < data.length := by
      rcases List.getElem?_eq_some.mp hx with ⟨hlt, _⟩
      exact hlt
    simp only [RFilter.apply]
    rw [List.getElem?_zipWith', getElem?_drawsList r _ i hi, hx]
    rfl
  refine ⟨?_, ?_, elt p⟩
  · refine List.ext_getElem? fun i => ?_
    rcases Nat.lt_or_ge i data.length with hi | hi
    · have hx : data[i]? = some data[i] := List.getElem?_eq_getElem hi
      rw [elt (.num 1) i _ hx, List.getElem?_replicate]
      have hle : leF (.num (r i)) (.num 1) = true := by
        simp only [leF, decide_eq_true_eq]
        exact le_of_lt (h i).2
      simp [hle, hi]
    · have h1 : (((RFilter.missing (.num 1)).apply data r).1).length ≤ i := by
        rw [apply_length]
        exact hi
      rw [List.getElem?_eq_none h1, List.getElem?_eq_none (by simpa using hi)]
  · intro hpos
    refine List.ext_getElem? fun i => ?_
    rcases Nat.lt_or_ge i data.length with hi | hi
    · have hx : data[i]? = some data[i] := List.getElem?_eq_getElem hi
      rw [elt (.num 0) i _ hx, hx]
      have hle : leF (.num (r i)) (.num 0) = false := by
        simp only [leF, decide_eq_false_iff_not]
        exact not_le.mpr (hpos i)
      simp [hle]
    · have h1 : (((RFilter.missing (.num 0)).apply data r).1).length ≤ i := by
        rw [apply_length]
        exact hi
      rw [List.getElem?_eq_none h1, List.getElem?_eq_none hi]

/-- Witness for `missing_probability_semantics`: with a constant draw of 1/2,
probability 1 masks the single element. -/
theorem missing_probability_semantics_witness :
    randWF (fun _ => mkRat 1 2)
  ∧ ((RFilter.missing (.num 1)).apply [PyFloat.num 2] (fun _ => mkRat 1 2)).1
      = List.replicate 1 PyFloat.nan :=
  have hwf : randWF fun _ => mkRat 1 2 := fun n => by
    show (0 : ℚ) ≤ mkRat 1 2 ∧ mkRat 1 2 < 1
    exact ⟨by decide, by decide⟩
  ⟨hwf, (missing_probability_semantics (.num 0) [PyFloat.num 2] (fun _ => mkRat 1 2) hwf).1⟩

theorem gapGo_working_forever (mv : PyFloat) :
    ∀ (data : List PyFloat) (r : RandSrc), randWF r →
      (gapGo (.num 0) (.num 1) mv data r true).1 = data
    ∧ (gapGo (.num 0) (.num 1) mv data r true).2.2 = true := by
  intro data
  induction data with
  | nil => intro r h; exact ⟨rfl, rfl⟩
  | cons x xs ih =>
    intro r h
    have hw1 : ltF (.num (r 0)) (.num 0) = false := by
      simp only [ltF, decide_eq_false_iff_not]
      exact not_lt.mpr (h 0).1
    have h2 := ih (shiftR r 1) (randWF_shiftR r 1 h)
    simp only [gapGo, hw1, Bool.not_false, if_true]
    exact ⟨by rw [h2.1], h2.2⟩

theorem gapGo_broken_forever (mv : PyFloat) :
    ∀ (data : List PyFloat) (r : RandSrc), randWF r →
      (gapGo (.num 1) (.num 0) mv data r false).1 = List.replicate data.length mv := by
  intro data
  induction data with
  | nil => intro r h; rfl
  | cons x xs ih =>
    intro r h
    have hw1 : ltF (.num (r 0)) (.num 0) = false := by
      simp only [ltF, decide_eq_false_iff_not]
      exact not_lt.mpr (h 0).1
    simp only [gapGo, hw1, if_false, Bool.false_eq_true, List.replicate_succ]
    rw [ih (shiftR r 1) (randWF_shiftR r 1 h)]
    rfl

/-- C7: with `prob_break = 0`, `prob_recover = 1` the Markov chain never
leaves the working state and no element is marked missing; with
`prob_break = 1`, `prob_recover = 0` the chain breaks on the very first
per-element step and every element is overwritten with the missing value.
(The chain is advanced once per element before the element is inspected.) -/
theorem gap_probability_boundaries (data : List PyFloat) (r : RandSrc) (mv : PyFloat)
    (h : randWF r) :
    ((RFilter.gap (.num 0) (.num 1) mv true).apply data r).1 = data
  ∧ ((RFilter.gap (.num 1) (.num 0) mv true).apply data r).1
      = List.replicate data.length mv := by
  constructor
  · simp only [RFilter.apply]
    exact (gapGo_working_forever mv data r h).1
  · simp only [RFilter.apply]
    cases data with
    | nil => rfl
    | cons x xs =>
      have hw1 : ltF (.num (r 0)) (.num 1) = true := by
        simp only [ltF, decide_eq_true_eq]
        exact (h 0).2
      simp only [gapGo, hw1, Bool.not_true, if_true, if_false, Bool.false_eq_true,
        List.replicate_succ]
      rw [gapGo_broken_forever mv xs (shiftR r 1) (randWF_shiftR r 1 h)]
      rfl

/-- Witness for `gap_probability_boundaries` on a two-element tensor with a
constant draw of 1/2. -/
theorem gap_probability_boundaries_witness :
    randWF (fun _ => mkRat 1 2)
  ∧ ((RFilter.gap (.num 0) (.num 1) PyFloat.nan true).apply
        [PyFloat.num 3, PyFloat.num 4] (fun _ => mkRat 1 2)).1
      = [PyFloat.num 3, PyFloat.num 4]
  ∧ ((RFilter.gap (.num 1) (.num 0) PyFloat.nan true).apply
        [PyFloat.num 3, PyFloat.num 4] (fun _ => mkRat 1 2)).1
      = List.replicate 2 PyFloat.nan :=
  have hwf : randWF fun _ => mkRat 1 2 := fun n => by
    show (0 : ℚ) ≤ mkRat 1 2 ∧ mkRat 1 2 < 1
    exact ⟨by decide, by decide⟩
  ⟨hwf, (gap_probability_boundaries _ _ _ hwf).1, (gap_probability_boundaries _ _ _ hwf).2⟩

/-- C1 counterexample: `Gap.apply` is not a pure function of (data, random
stream, resolved parameters): it also reads the persisted `working` flag.
With `prob_break = prob_recover = 1` and a constant draw of 1/2, running
`apply` twice on the same instance — each time on a fresh copy of the data
with an independently-constructed, identically-seeded random source — gives
`[NaN]` the first time and `[0]` the second time. -/
theorem gap_apply_hidden_state_counterexample :
    randWF (fun _ => mkRat 1 2)
  ∧ (((RFilter.gap (.num 1) (.num 1) PyFloat.nan true).apply
        [PyFloat.num 0] (fun _ => mkRat 1 2)).1
      ≠ ((((RFilter.gap (.num 1) (.num 1) PyFloat.nan true).apply
            [PyFloat.num 0] (fun _ => mkRat 1 2)).2.2).apply
          [PyFloat.num 0] (fun _ => mkRat 1 2)).1) :=
  ⟨fun n => by
      show (0 : ℚ) ≤ mkRat 1 2 ∧ mkRat 1 2 < 1
      exact ⟨by decide, by decide⟩,
    by decide⟩

/-- C1 amended: `apply` is a pure function of (data, random-source state,
resolved parameters, persisted instance state).  For every filter containing
no `Gap` the instance state is untouched by `apply`, so re-running on a copy
of the data with an identically-seeded random source reproduces the first
run bit for bit; `Gap` is the one filter whose `working` flag survives the
call, and its runs repeat only from equal flag states (e.g. after the
`set_params` reset). -/
theorem apply_pure_given_instance_state (f : RFilter) (data : List PyFloat) (r : RandSrc)
    (h : f.gapFree = true) :
    (f.apply data r).2.2 = f
  ∧ ((f.apply data r).2.2).apply data r = f.apply data r := by
  have h1 := apply_state_eq f h data r
  exact ⟨h1, by rw [h1]⟩

/-- Witness for `apply_pure_given_instance_state`: the combinator
`Addition(Constant(2), Identity)` repeats identically. -/
theorem apply_pure_given_instance_state_witness :
    RFilter.gapFree (.binary .add (.constant (.num 2)) .identity) = true
  ∧ ((RFilter.binary .add (.constant (.num 2)) .identity).apply
        [PyFloat.num 5] (fun _ => 0)).2.2
      = .binary .add (.constant (.num 2)) .identity
  ∧ (((RFilter.binary .add (.constant (.num 2)) .identity).apply
        [PyFloat.num 5] (fun _ => 0)).2.2).apply [PyFloat.num 5] (fun _ => 0)
      = (RFilter.binary .add (.constant (.num 2)) .identity).apply
          [PyFloat.num 5] (fun _ => 0) :=
  have hc := apply_pure_given_instance_state
    (.binary .add (.constant (.num 2)) .identity) [PyFloat.num 5] (fun _ => 0) (by decide)
  ⟨by decide, hc.1, hc.2⟩

/-- C4: `Difference.set_params` generates a fresh key, binds it to
`Identity()` in the mapping and resolves `Subtraction(ftr_id, identity_key)`:
whenever the inner filter resolves to `A`, the filter `Difference(ftr_id)`
resolves to is exactly the spec's `Subtraction(A, Identity)`, and therefore
produces the same output on every tensor and random stream. -/
theorem difference_resolves_to_subtraction_identity
    (fuel : ℕ) (d : PDict) (fid : String) (ef : FilterExpr) (A : RFilter)
    (h1 : dictGet d fid = some (.filt ef))
    (h2 : resolve fuel ef
        ((generate_random_dict_key d "identity", .filt .identity) :: d) = .ok A) :
    resolve (fuel + 2) (.difference fid) d = .ok (subtractionOfSpec A)
  ∧ ∀ (data : List PyFloat) (r : RandSrc),
      (resolve (fuel + 2) (.difference fid) d).map (fun f => (f.apply data r).1)
        = .ok (((subtractionOfSpec A).apply data r).1) := by
  have hk : dictGet d (generate_random_dict_key d "identity") = none :=
    dictGet_generate_random_dict_key d "identity"
  have hfid : generate_random_dict_key d "identity" ≠ fid := by
    intro e
    rw [e] at hk
    rw [h1] at hk
    cases hk
  obtain ⟨m, rfl⟩ : ∃ m, fuel = m + 1 := by
    cases fuel with
    | zero => simp [resolve] at h2
    | succ m => exact ⟨m, rfl⟩
  have hmain : resolve (m + 1 + 2) (.difference fid) d = .ok (subtractionOfSpec A) := by
    show resolve (m + 3) (.difference fid) d = .ok (subtractionOfSpec A)
    simp only [resolve, getP, dictGet, if_neg hfid, eq_self_iff_true, if_true, h1, h2,
      subtractionOfSpec]
  exact ⟨hmain, fun data r => by rw [hmain]; rfl⟩

/-- Witness for `difference_resolves_to_subtraction_identity`: a mapping
binding `"f"` to `Constant("c")` and `"c"` to 2. -/
theorem difference_resolves_witness :
    dictGet [("f", FVal.filt (.constant "c")), ("c", FVal.num (.num 2))] "f"
        = some (.filt (.constant "c"))
  ∧ resolve 1 (.constant "c")
        ((generate_random_dict_key
            [("f", FVal.filt (.constant "c")), ("c", FVal.num (.num 2))] "identity",
          FVal.filt .identity)
          :: [("f", FVal.filt (.constant "c")), ("c", FVal.num (.num 2))])
      = .ok (.constant (.num 2))
  ∧ resolve 3 (.difference "f")
        [("f", FVal.filt (.constant "c")), ("c", FVal.num (.num 2))]
      = .ok (subtractionOfSpec (.constant (.num 2))) :=
  ⟨rfl, rfl,
    (difference_resolves_to_subtraction_identity 1
      [("f", FVal.filt (.constant "c")), ("c", FVal.num (.num 2))]
      "f" (.constant "c") (.constant (.num 2)) rfl rfl).1⟩

end DPEmu
